import Mathlib

/-!
Verification of the DGL distributed-graph core against its specification.

The development shallowly embeds the Python sources:
* `src/python/dgl/distributed/rpc_client.py` (RPC client setup / shutdown),
* `src/tools/launch.py` (CLI launcher),
* `src/python/dgl/graph_index.py` (`SubgraphIndex`),
* `src/python/dgl/data/graph_serialize.py` (graph save/load),
and models the graph partitioner (`dgl.transform.partition_graph_with_halo`,
whose implementation is not part of the sources here) from the specification.

Stateful code is embedded as explicit state passing; network and OS effects are
recorded in an event trace; fallible code returns `Option`/`Except`.
-/

namespace Dgl

/-! ## RPC client model (src/python/dgl/distributed/rpc_client.py) -/

/-- One entry of the server namebook produced by `rpc.read_ip_config`:
the server's `machine_id`, IP address, port and group count.  The namebook is
keyed by consecutive server ids starting from 0; we model it as a list whose
positions are the server ids (Python dict iteration order = insertion order). -/
structure ServerInfo where
  machineId : Nat
  ip : String
  port : Nat
  groupCount : Nat
deriving DecidableEq, Repr

/-- The outcome of the SIOCGIFADDR ioctl for one network interface in
`local_ip4_addr_list`: either an IPv4 address or an `OSError` errno. -/
structure IfaceAddr where
  name : String
  result : Except Nat String
deriving Repr

/-- errno 99, the code `local_ip4_addr_list` treats as "no address on this
interface". -/
def EADDRNOTAVAIL : Nat := 99

/-- Python `set.add`: append the element unless already present. -/
def setAdd (s : List String) (x : String) : List String :=
  if x ∈ s then s else s ++ [x]

/-- The loop body of `local_ip4_addr_list`: walk the interfaces, skip (with a
warning) those whose ioctl fails with errno `EADDRNOTAVAIL`, re-raise any other
`OSError`, and collect the addresses of the rest into the set `nic`.
Returns the emitted warnings (interface names) and either the raised errno or
the final address set. -/
def ip4Loop (nic : List String) : List IfaceAddr → List String × Except Nat (List String)
  | [] => ([], Except.ok nic)
  | q :: rest =>
    match q.result with
    | Except.error e =>
      if e = EADDRNOTAVAIL then
        let r := ip4Loop nic rest
        (q.name :: r.1, r.2)
      else ([], Except.error e)
    | Except.ok ip => ip4Loop (setAdd nic ip) rest

/-- `local_ip4_addr_list`: the set of local IPv4 addresses, given the per-
interface ioctl outcomes. -/
def local_ip4_addr_list (ifaces : List IfaceAddr) : List String × Except Nat (List String) :=
  ip4Loop [] ifaces

/-- The loop of `get_local_machine_id`: `res = 0`, then take the `machine_id`
of the first namebook entry whose IP is local and break. -/
def machineIdLoop : List ServerInfo → List String → Nat
  | [], _ => 0
  | info :: rest, ipList =>
    if info.ip ∈ ipList then info.machineId else machineIdLoop rest ipList

/-- `get_local_machine_id(server_namebook)`: calls `local_ip4_addr_list`
(letting any raised `OSError` propagate) and scans the namebook. -/
def get_local_machine_id (namebook : List ServerInfo) (ifaces : List IfaceAddr) :
    Except Nat Nat :=
  match (local_ip4_addr_list ifaces).2 with
  | Except.error e => Except.error e
  | Except.ok ipList => Except.ok (machineIdLoop namebook ipList)

/-- Service tags registered by the client (`rpc.CLIENT_REGISTER` etc.). -/
inductive Service where
  | clientRegister
  | shutDownServer
  | getNumClients
deriving DecidableEq, Repr

/-- RPC requests sent by the client. -/
inductive Request where
  | clientRegister (addr : String)
  | shutDown (clientId : Int)
  | getNumClients (rank : Int)
deriving DecidableEq, Repr

/-- RPC responses received by the client. -/
inductive Response where
  | clientRegister (clientId : Nat)
  | getNumClients (numClient : Nat)
deriving DecidableEq, Repr

/-- Effects performed by the client, recorded as an ordered trace. -/
inductive Event where
  | registerService (tag : Service)
  | registerCtrlC
  | createSender (maxQueueSize : Nat)
  | createReceiver (maxQueueSize : Nat)
  | addReceiverAddr (ip : String) (port : Nat) (serverId : Nat)
  | senderConnect
  | sendRequest (serverId : Nat) (req : Request)
  | receiverWait (ip : String) (port : Nat) (numServers : Nat)
  | recvResponse
  | finalizeSender
  | finalizeReceiver
deriving DecidableEq, Repr

/-- Process-exit callbacks registered through `atexit`. -/
inductive ExitHook where
  | exitClient
deriving DecidableEq, Repr

/-- The client-side process state of the `rpc` module plus the recorded
event trace.  `rank` is `-1` until the server assigns a client id. -/
structure ClientState where
  numServer : Nat := 0
  numServerPerMachine : Nat := 0
  numMachines : Nat := 0
  machineId : Nat := 0
  rank : Int := -1
  numClient : Nat := 0
  initialized : Bool := false
  exitHooks : List ExitHook := []
  responses : List Response := []
  events : List Event := []
deriving DecidableEq, Repr

/-- `is_initialized()`. -/
def is_initialized (st : ClientState) : Bool := st.initialized

/-- The `add_receiver_addr` events of the loop
`for server_id, addr in server_namebook.items()`, server ids counted from `i`. -/
def addrEvents : Nat → List ServerInfo → List Event
  | _, [] => []
  | i, info :: rest => Event.addReceiverAddr info.ip info.port i :: addrEvents (i + 1) rest

/-- `connect_to_server(ip_config, max_queue_size, net_type)`.

Inputs that the Python code obtains from the environment are passed
explicitly: the namebook read from the ip-config file, the per-interface
ioctl outcomes (used by `get_local_machine_id`), the local usable address
found by `get_local_usable_addr`, and the stream of responses the receiver
will deliver.  Returns `none` where the Python raises (failed assert, empty
namebook indexing `group_count[0]`, a propagated `OSError`, or a response of
the wrong shape). -/
def connect_to_server (namebook : List ServerInfo) (ifaces : List IfaceAddr)
    (localIp : String) (localPort : Nat) (responses : List Response)
    (maxQueueSize : Nat) : Option ClientState :=
  if maxQueueSize = 0 then none else
  let st : ClientState := { responses := responses }
  let st := { st with events := st.events ++
      [Event.registerService Service.clientRegister,
       Event.registerService Service.shutDownServer,
       Event.registerService Service.getNumClients,
       Event.registerCtrlC] }
  let numServers := namebook.length
  let st := { st with numServer := numServers }
  match namebook.head? with
  | none => none
  | some firstInfo =>
    let st := { st with numServerPerMachine := firstInfo.groupCount }
    let maxMachineId := namebook.foldl (fun m info => if info.machineId > m then info.machineId else m) 0
    let st := { st with numMachines := maxMachineId + 1 }
    match get_local_machine_id namebook ifaces with
    | Except.error _ => none
    | Except.ok machineId =>
      let st := { st with machineId := machineId }
      let st := { st with events := st.events ++
          [Event.createSender maxQueueSize, Event.createReceiver maxQueueSize] }
      let st := { st with events := st.events ++ addrEvents 0 namebook }
      let st := { st with events := st.events ++ [Event.senderConnect] }
      let ipAddr := localIp ++ ":" ++ toString localPort
      let st := { st with events := st.events ++
          (List.range numServers).map (fun i => Event.sendRequest i (Request.clientRegister ipAddr)) }
      let st := { st with events := st.events ++ [Event.receiverWait localIp localPort numServers] }
      match st.responses with
      | [] => none
      | res :: rest =>
        match res with
        | Response.getNumClients _ => none
        | Response.clientRegister clientId =>
          let st := { st with responses := rest, rank := (clientId : Int),
                              events := st.events ++ [Event.recvResponse] }
          let st := { st with events := st.events ++
              [Event.sendRequest 0 (Request.getNumClients st.rank)] }
          match st.responses with
          | [] => none
          | res2 :: rest2 =>
            match res2 with
            | Response.clientRegister _ => none
            | Response.getNumClients numClient =>
              let st := { st with responses := rest2, numClient := numClient,
                                  events := st.events ++ [Event.recvResponse] }
              let st := { st with exitHooks := st.exitHooks ++ [ExitHook.exitClient] }
              let st := { st with initialized := true }
              some st

/-- `finalize_client()`: release the sender and the receiver and drop the
initialized flag. -/
def finalize_client (st : ClientState) : ClientState :=
  { st with events := st.events ++ [Event.finalizeSender, Event.finalizeReceiver],
            initialized := false }

/-- `shutdown_servers()`: only client 0 issues the shutdown broadcast. -/
def shutdown_servers (st : ClientState) : ClientState :=
  if st.rank = 0 then
    { st with events := st.events ++
        (List.range st.numServer).map (fun i => Event.sendRequest i (Request.shutDown st.rank)) }
  else st

/-- `exit_client()`: shut the servers down, then finalize the transport, then
unregister itself from `atexit`. -/
def exit_client (st : ClientState) : ClientState :=
  let st := shutdown_servers st
  let st := finalize_client st
  { st with exitHooks := st.exitHooks.filter (fun h => h ≠ ExitHook.exitClient) }

/-! ## CLI launcher model (src/tools/launch.py)

`execute_remote` starts a daemon `Thread` whose target runs
`subprocess.check_call` on the ssh command; `submit_jobs` collects the threads
and `join`s them all.  A remote command is summarized by its return code. -/

/-- The final state of one launcher thread: its target either completed or
raised a `CalledProcessError` that the `threading` machinery caught and
printed; either way the thread just terminates. -/
inductive ThreadOutcome where
  | completed
  | excepted (returncode : Int)
deriving DecidableEq, Repr

/-- `subprocess.check_call`: raises `CalledProcessError` exactly when the
command's return code is non-zero. -/
def check_call (returncode : Int) : Except Int Unit :=
  if returncode = 0 then Except.ok () else Except.error returncode

/-- The thread target `run(cmd)` of `execute_remote`: an exception escaping a
thread target is confined to that thread. -/
def threadRun (returncode : Int) : ThreadOutcome :=
  match check_call returncode with
  | Except.ok _ => ThreadOutcome.completed
  | Except.error rc => ThreadOutcome.excepted rc

/-- `execute_remote(cmd, ip, thread_list)`: start the thread and append it to
`thread_list`. -/
def execute_remote (returncode : Int) (threadList : List ThreadOutcome) : List ThreadOutcome :=
  threadList ++ [threadRun returncode]

/-- `Thread.join`: returns normally whether or not the thread's target raised. -/
def threadJoin (_ : ThreadOutcome) : Unit := ()

/-- `submit_jobs`: spawn one thread per remote command (servers and clients),
then join them all; the joined thread list is the function's only observable
outcome here. -/
def submit_jobs (returncodes : List Int) : List ThreadOutcome :=
  let threadList := returncodes.foldl (fun acc rc => execute_remote rc acc) []
  let _ := threadList.map threadJoin
  threadList

/-- The launcher process's exit code: `main` returns normally after
`submit_jobs` (no exception from a joined thread reaches the main thread), so
the interpreter exits with code 0. -/
def launcherExitCode (returncodes : List Int) : Int :=
  let _ := submit_jobs returncodes
  0

/-! ## SubgraphIndex (src/python/dgl/graph_index.py) -/

/-- The graph index of a node/edge subgraph: the subgraph's own structure plus
the induced parent node/edge ids. -/
structure SubgraphIndex where
  numNodes : Nat
  edges : List (Nat × Nat)
  inducedNodes : List Nat
  inducedEdges : List Nat
deriving DecidableEq, Repr

/-- The message of the `RuntimeError` raised by the disabled mutators. -/
def readonlyMsg : String := "Readonly graph. Mutation is not allowed."

/-- `SubgraphIndex.add_nodes`: raises unconditionally; the object is returned
unchanged alongside the raised error. -/
def SubgraphIndex.add_nodes (g : SubgraphIndex) (_num : Nat) :
    Except String Unit × SubgraphIndex :=
  (Except.error readonlyMsg, g)

/-- `SubgraphIndex.add_edge`: raises unconditionally. -/
def SubgraphIndex.add_edge (g : SubgraphIndex) (_u _v : Nat) :
    Except String Unit × SubgraphIndex :=
  (Except.error readonlyMsg, g)

/-- `SubgraphIndex.add_edges`: raises unconditionally. -/
def SubgraphIndex.add_edges (g : SubgraphIndex) (_u _v : List Nat) :
    Except String Unit × SubgraphIndex :=
  (Except.error readonlyMsg, g)

/-! ## Graph serialization (src/python/dgl/data/graph_serialize.py) -/

/-- A feature tensor, abstracted to its payload. -/
structure Tensor where
  data : List Int
deriving DecidableEq, Repr

/-- Feature dictionaries (`g.ndata` / `g.edata` / label dicts): insertion-
ordered string-keyed maps. -/
abbrev FeatDict : Type := List (String × Tensor)

/-- A homogeneous `DGLGraph` as far as serialization observes it: structure
plus node/edge feature dictionaries. -/
structure DGLGraph where
  numNodes : Nat
  edges : List (Nat × Nat)
  ndata : FeatDict
  edata : FeatDict
deriving DecidableEq, Repr

/-- `GraphData`: the serializable image of one graph — the structure handle
plus optional node/edge tensor maps (`None` when the dict was empty). -/
structure GraphData where
  ghandle : Nat × List (Nat × Nat)
  nodeTensors : Option FeatDict
  edgeTensors : Option FeatDict
deriving DecidableEq, Repr

/-- `GraphData.create(g)`. -/
def GraphData.create (g : DGLGraph) : GraphData :=
  { ghandle := (g.numNodes, g.edges)
    nodeTensors := if g.ndata.length ≠ 0 then some g.ndata else none
    edgeTensors := if g.edata.length ≠ 0 then some g.edata else none }

/-- `GraphData.get_graph()`: rebuild the graph from the handle and re-insert
the stored tensors (nothing to insert when `None` was stored). -/
def GraphData.get_graph (gd : GraphData) : DGLGraph :=
  { numNodes := gd.ghandle.1
    edges := gd.ghandle.2
    ndata := gd.nodeTensors.getD []
    edata := gd.edgeTensors.getD [] }

/-- Modelled from the spec: the on-disk artifact written by the C API
`_CAPI_SaveDGLGraphs_V0` (not under src) — a version-1 blob holding the graph
list and the optional label dict, per the partition-artifact description and
the `save_graphs`/`load_graphs` docstrings. -/
inductive FileContent where
  | dglV1 (gdataList : List GraphData) (labels : Option FeatDict)
deriving DecidableEq, Repr

/-- The file system, as a name-to-content map. -/
abbrev FileSystem : Type := List (String × FileContent)

/-- Write (or overwrite) one file. -/
def fsSet (fs : FileSystem) (name : String) (c : FileContent) : FileSystem :=
  (name, c) :: fs.filter (fun p => p.1 ≠ name)

/-- Read one file. -/
def fsGet (fs : FileSystem) (name : String) : Option FileContent :=
  (fs.find? (fun p => p.1 == name)).map (fun p => p.2)

/-- Modelled from the spec: `_CAPI_SaveDGLGraphs_V0` (not under src) stores
the graph-data list and label dict under `filename` in the version-1 format. -/
def CAPI_SaveDGLGraphs_V0 (fs : FileSystem) (filename : String)
    (gdataList : List GraphData) (labelDict : Option FeatDict) : FileSystem :=
  fsSet fs filename (FileContent.dglV1 gdataList labelDict)

/-- `save_dglgraphs(filename, g_list, labels)`: an empty or absent label dict
is stored as `None`. -/
def save_dglgraphs (fs : FileSystem) (filename : String) (gList : List DGLGraph)
    (labels : Option FeatDict) : FileSystem :=
  let labelDict : Option FeatDict :=
    match labels with
    | none => none
    | some l => if l.length ≠ 0 then some l else none
  CAPI_SaveDGLGraphs_V0 fs filename (gList.map GraphData.create) labelDict

/-- `save_graphs(filename, g_list, labels)` for a list of homogeneous
`DGLGraph`s: `g_list[0]` raises `IndexError` on an empty list (`none`);
otherwise the `DGLGraph` branch dispatches to `save_dglgraphs`. -/
def save_graphs (fs : FileSystem) (filename : String) (gList : List DGLGraph)
    (labels : Option FeatDict) : Option FileSystem :=
  match gList with
  | [] => none
  | _ :: _ => some (save_dglgraphs fs filename gList labels)

/-- Modelled from the spec: `_CAPI_GetFileVersion` (not under src) reads the
version tag of the stored blob. -/
def CAPI_GetFileVersion (fs : FileSystem) (filename : String) : Option Nat :=
  match fsGet fs filename with
  | some (FileContent.dglV1 _ _) => some 1
  | none => none

/-- `load_graph_v1(filename, idx_list)`: an empty (or omitted) index list
loads every stored graph, otherwise the listed indices are loaded; the label
dict is rebuilt from the stored one (`None` → empty dict). -/
def load_graph_v1 (fs : FileSystem) (filename : String) (idxList : Option (List Nat)) :
    Option (List DGLGraph × FeatDict) :=
  match fsGet fs filename with
  | some (FileContent.dglV1 gdataList labels) =>
    let selected :=
      match idxList.getD [] with
      | [] => gdataList
      | idxs => idxs.filterMap (fun i => gdataList.get? i)
    some (selected.map GraphData.get_graph, labels.getD [])
  | none => none

/-- `load_graphs(filename, idx_list)`: asserts the file exists, dispatches on
the stored version. -/
def load_graphs (fs : FileSystem) (filename : String) (idxList : Option (List Nat)) :
    Option (List DGLGraph × FeatDict) :=
  match CAPI_GetFileVersion fs filename with
  | some 1 => load_graph_v1 fs filename idxList
  | _ => none

/-! ## Graph partitioner

Modelled from the spec: the implementation of
`dgl.transform.partition_graph_with_halo` / `dgl.transform.metis_partition`
(and the C API they call) is not under src — only its tests are
(`src/tests/compute/test_transform.py`).  The model below follows spec §4.1:
take a node→partition assignment, expand each partition's node set outward by
`halo_hops` steps along both in- and out-edges, compute the induced subgraph
on the expanded set, and mark inner vs. halo flags; an edge is owned by (inner
in) the partition owning its destination node, the convention under which the
per-partition `inner_edge` flags of `check_metis_partition` cover every
original edge exactly once. -/

/-- A directed (multi)graph: `numNodes` nodes, edges listed with their edge id
given by the list position. -/
structure Graph where
  numNodes : Nat
  edges : List (Nat × Nat)
deriving DecidableEq, Repr

/-- Every edge endpoint names an existing node. -/
def Graph.wf (g : Graph) : Prop :=
  ∀ e ∈ g.edges, e.1 < g.numNodes ∧ e.2 < g.numNodes

/-- The partition owning node `n` under the assignment array `np`. -/
def nodePartOf (np : List Nat) (n : Nat) : Nat := np.getD n 0

/-- The inner nodes of partition `p`: the nodes assigned to `p`, in ascending
global-id order. -/
def innerNodes (np : List Nat) (p : Nat) : List Nat :=
  (List.range np.length).filter (fun n => decide (nodePartOf np n = p))

/-- Whether node `n` touches an edge with an endpoint in `s`
(both directions, spec §4.1 step (3)). -/
def adjacentToSet (g : Graph) (s : List Nat) (n : Nat) : Bool :=
  g.edges.any (fun e => decide ((e.1 = n ∧ e.2 ∈ s) ∨ (e.2 = n ∧ e.1 ∈ s)))

/-- One halo-expansion step: add every node one hop away from the current set,
keeping the current set as a list head. -/
def expandOnce (g : Graph) (s : List Nat) : List Nat :=
  s ++ (List.range g.numNodes).filter (fun n => decide (n ∉ s) && adjacentToSet g s n)

/-- The node set of partition `p`'s subgraph with halo depth `k`: the inner
nodes expanded `k` times (spec §4.1 steps (3)–(4)); inner nodes come first. -/
def haloNodeSet (g : Graph) (np : List Nat) (p k : Nat) : List Nat :=
  (expandOnce g)^[k] (innerNodes np p)

/-- The induced edges of partition `p`'s subgraph: the original edges with
both endpoints in the halo-extended node set, tagged with their original edge
id. -/
def inducedEdges (g : Graph) (np : List Nat) (p k : Nat) : List (Nat × Nat × Nat) :=
  (List.range g.edges.length).filterMap (fun e =>
    match g.edges.get? e with
    | some (u, v) =>
      if u ∈ haloNodeSet g np p k ∧ v ∈ haloNodeSet g np p k then some (e, u, v) else none
    | none => none)

/-- The original edge ids flagged `inner_edge` in partition `p`'s subgraph:
induced edges whose destination is owned by `p`. -/
def innerEdgeIds (g : Graph) (np : List Nat) (p k : Nat) : List Nat :=
  (inducedEdges g np p k).filterMap (fun t =>
    if nodePartOf np t.2.2 = p then some t.1 else none)

/-- Number of inner nodes of partition `p`. -/
def innerCnt (np : List Nat) (p : Nat) : Nat := (innerNodes np p).length

/-- The first reshuffled global id of partition `p`: partitions own the
consecutive id ranges required by the range-based partition book. -/
def innerOffset (np : List Nat) (p : Nat) : Nat :=
  ((List.range p).map (innerCnt np)).sum

/-- The reshuffled global id of node `n` (spec §4.1 step (6)): nodes are
renumbered partition by partition, keeping the original order inside each
partition. -/
def newNodeId (np : List Nat) (n : Nat) : Nat :=
  innerOffset np (nodePartOf np n) + (innerNodes np (nodePartOf np n)).indexOf n

/-- One node of a partition subgraph: its reshuffled global id (`dgl.NID`),
its original id (`orig_id`), its `inner_node` flag and its owner (`part_id`). -/
structure SubgraphNode where
  globalId : Nat
  origId : Nat
  inner : Bool
  partId : Nat
deriving DecidableEq, Repr

/-- The node list of partition `p`'s subgraph after reshuffling, indexed by
local id: the halo-extended node set (inner nodes first) with the reshuffled
global ids and the inner/owner flags. -/
def reshuffledSubgraphNodes (g : Graph) (np : List Nat) (p k : Nat) : List SubgraphNode :=
  (haloNodeSet g np p k).map (fun n =>
    { globalId := newNodeId np n
      origId := n
      inner := decide (nodePartOf np n = p)
      partId := nodePartOf np n })

/-! ## Concrete instances used by witnesses and counterexamples -/

/-- A 2-node graph with a single cut edge, split into two partitions. -/
def cutGraph : Graph := { numNodes := 2, edges := [(0, 1)] }

/-- The assignment putting node 0 in partition 0 and node 1 in partition 1. -/
def cutAssign : List Nat := [0, 1]

/-- A 3-node path graph for the reshuffling witness. -/
def pathGraph : Graph := { numNodes := 3, edges := [(0, 1), (1, 2)] }

/-- Assignment for `pathGraph`: nodes 0 and 2 in partition 0, node 1 in 1. -/
def pathAssign : List Nat := [0, 1, 0]

/-- First entry of the witness namebook. -/
def wNb0 : ServerInfo := { machineId := 0, ip := "1.2.3.4", port := 30050, groupCount := 2 }

/-- Remaining entries of the witness namebook. -/
def wNbRest : List ServerInfo :=
  [{ machineId := 0, ip := "1.2.3.4", port := 30051, groupCount := 2 },
   { machineId := 1, ip := "5.6.7.8", port := 30050, groupCount := 1 }]

/-- A 2-machine, 3-server namebook used by the connection witnesses. -/
def wNamebook : List ServerInfo := wNb0 :: wNbRest

/-- Interface outcomes of the witness host: a loopback, one routable address
and one interface without an address. -/
def wIfaces : List IfaceAddr :=
  [{ name := "lo", result := Except.ok "127.0.0.1" },
   { name := "eth0", result := Except.ok "5.6.7.8" },
   { name := "eth1", result := Except.error 99 }]

/-- A rank-0 client with two known servers. -/
def wClientZero : ClientState := { rank := 0, numServer := 2 }

/-- A client of non-zero rank. -/
def wClientFive : ClientState := { rank := 5, numServer := 2 }

/-- Witness graphs for the serialization round trip. -/
def wGraphA : DGLGraph :=
  { numNodes := 4, edges := [(0, 1), (1, 2)]
    ndata := [("feat", { data := [1, 2, 3, 4] })], edata := [] }

def wGraphB : DGLGraph :=
  { numNodes := 2, edges := [(0, 0)], ndata := [], edata := [("w", { data := [5] })] }

end Dgl

namespace Dgl

/-! ## Helper lemmas -/

theorem foldl_execute_remote (rcs : List Int) (acc : List ThreadOutcome) :
    rcs.foldl (fun a rc => execute_remote rc a) acc = acc ++ rcs.map threadRun := by
  induction rcs generalizing acc with
  | nil => simp
  | cons rc rest ih =>
    rw [List.foldl_cons, ih]
    simp [execute_remote]

theorem submit_jobs_eq_map (rcs : List Int) : submit_jobs rcs = rcs.map threadRun := by
  simp [submit_jobs, foldl_execute_remote]

theorem machineIdLoop_eq_find (nb : List ServerInfo) (ips : List String) :
    machineIdLoop nb ips =
      match nb.find? (fun info => decide (info.ip ∈ ips)) with
      | some info => info.machineId
      | none => 0 := by
  induction nb with
  | nil => rfl
  | cons info rest ih =>
    by_cases h : info.ip ∈ ips
    · rw [machineIdLoop, if_pos h, List.find?_cons_of_pos _ (by simpa using h)]
    · rw [machineIdLoop, if_neg h, List.find?_cons_of_neg _ (by simpa using h), ih]

/-! ## Claim theorems -/

/-- C9: on a `SubgraphIndex` each of `add_nodes`, `add_edge` and `add_edges`
raises `RuntimeError('Readonly graph. Mutation is not allowed.')` and leaves
the subgraph (its node count, edge list and induced node/edge id mappings)
unchanged. -/
theorem subgraphIndex_mutators_raise (g : SubgraphIndex) (num u v : Nat)
    (us vs : List Nat) :
    g.add_nodes num = (Except.error readonlyMsg, g) ∧
    g.add_edge u v = (Except.error readonlyMsg, g) ∧
    g.add_edges us vs = (Except.error readonlyMsg, g) :=
  ⟨rfl, rfl, rfl⟩

/-- C4: `shutdown_servers` on a rank-0 client sends one `ShutDownRequest` to
each server id in `[0, num_server)`; on any other rank it sends nothing and
returns normally, leaving the state untouched. -/
theorem shutdown_servers_rank0_broadcast (st : ClientState) :
    (st.rank = 0 →
      shutdown_servers st = { st with events := st.events ++ (List.range st.numServer).map (fun i => Event.sendRequest i (Request.shutDown 0)) }) ∧
    (st.rank ≠ 0 → shutdown_servers st = st) := by
  constructor
  · intro h
    rw [shutdown_servers, if_pos h, h]
  · intro h
    rw [shutdown_servers, if_neg h]

/-- Witness for C4: a rank-0 client with two servers broadcasts to servers 0
and 1; a rank-5 client's call is a no-op. -/
theorem shutdown_servers_rank0_broadcast_witness :
    (shutdown_servers wClientZero = { wClientZero with events := wClientZero.events ++ (List.range wClientZero.numServer).map (fun i => Event.sendRequest i (Request.shutDown 0)) }) ∧
    shutdown_servers wClientFive = wClientFive :=
  ⟨(shutdown_servers_rank0_broadcast wClientZero).1 rfl,
   (shutdown_servers_rank0_broadcast wClientFive).2 (by decide)⟩

/-- C6 counterexample: a remote command failing with return code 1 does not
make the launcher exit non-zero — `check_call` raises inside the spawned
thread, the exception never reaches the main thread, and the launcher exits
with code 0. -/
theorem launcher_exit_counterexample :
    ¬ ((∃ rc ∈ [(1 : Int)], rc ≠ 0) → launcherExitCode [(1 : Int)] ≠ 0) := by
  decide

/-- C6 amended: when a remote command spawned by the launcher fails, the
`CalledProcessError` is raised inside the daemon thread that ran it (the
thread ends excepted), but the launcher's main process joins all threads
without observing the exception and always exits with code 0. -/
theorem launcher_exit_amended (rcs : List Int) (rc : Int) (hmem : rc ∈ rcs)
    (hrc : rc ≠ 0) :
    launcherExitCode rcs = 0 ∧ ThreadOutcome.excepted rc ∈ submit_jobs rcs := by
  refine ⟨rfl, ?_⟩
  rw [submit_jobs_eq_map]
  refine List.mem_map.mpr ⟨rc, hmem, ?_⟩
  rw [threadRun, check_call, if_neg hrc]

/-- Witness for C6 amended: the failed command with return code 1 leaves an
excepted thread while the launcher exits 0. -/
theorem launcher_exit_amended_witness :
    launcherExitCode [(1 : Int)] = 0 ∧
    ThreadOutcome.excepted 1 ∈ submit_jobs [(1 : Int)] :=
  launcher_exit_amended [(1 : Int)] 1 (by decide) (by decide)

/-- C10: when local address discovery succeeds, `get_local_machine_id`
returns the `machine_id` of the first namebook entry (in iteration order)
whose IP is among the local addresses, and 0 when no entry matches — in
particular a client on a machine hosting no server gets machine id 0. -/
theorem get_local_machine_id_first_match (namebook : List ServerInfo)
    (ifaces : List IfaceAddr) (ips : List String)
    (h : (local_ip4_addr_list ifaces).2 = Except.ok ips) :
    get_local_machine_id namebook ifaces =
      Except.ok (match namebook.find? (fun info => decide (info.ip ∈ ips)) with
                 | some info => info.machineId
                 | none => 0) := by
  rw [get_local_machine_id, h]
  exact congrArg Except.ok (machineIdLoop_eq_find namebook ips)

/-- Witness for C10: on the witness host, server 2 (ip 5.6.7.8) is the first
matching entry, so the machine id is 1; with an empty namebook the result is
0. -/
theorem get_local_machine_id_first_match_witness :
    get_local_machine_id wNamebook wIfaces =
      Except.ok (match wNamebook.find? (fun info => decide (info.ip ∈ ["127.0.0.1", "5.6.7.8"])) with
                 | some info => info.machineId
                 | none => 0) :=
  get_local_machine_id_first_match wNamebook wIfaces ["127.0.0.1", "5.6.7.8"] rfl

end Dgl

namespace Dgl

theorem mem_setAdd {s : List String} {x y : String} :
    y ∈ setAdd s x ↔ y ∈ s ∨ y = x := by
  unfold setAdd
  by_cases h : x ∈ s
  · rw [if_pos h]
    constructor
    · exact fun hy => Or.inl hy
    · rintro (hy | rfl)
      · exact hy
      · exact h
  · rw [if_neg h]
    simp

theorem ip4Loop_cons_warn (acc : List String) (q : IfaceAddr) (rest : List IfaceAddr)
    (hq : q.result = Except.error EADDRNOTAVAIL) :
    ip4Loop acc (q :: rest) = (q.name :: (ip4Loop acc rest).1, (ip4Loop acc rest).2) := by
  simp [ip4Loop, hq]

theorem ip4Loop_cons_ok (acc : List String) (q : IfaceAddr) (rest : List IfaceAddr)
    (ip : String) (hq : q.result = Except.ok ip) :
    ip4Loop acc (q :: rest) = ip4Loop (setAdd acc ip) rest := by
  simp [ip4Loop, hq]

theorem ip4Loop_cons_fatal (acc : List String) (q : IfaceAddr) (rest : List IfaceAddr)
    (e : Nat) (hq : q.result = Except.error e) (hne : e ≠ EADDRNOTAVAIL) :
    ip4Loop acc (q :: rest) = ([], Except.error e) := by
  simp [ip4Loop, hq, hne]

/-- Interface lists whose only ioctl failures are `EADDRNOTAVAIL`. -/
def OnlyAddrUnavailable (l : List IfaceAddr) : Prop :=
  ∀ q ∈ l, ∀ e, q.result = Except.error e → e = EADDRNOTAVAIL

theorem ip4Loop_ok (ifaces : List IfaceAddr) (acc : List String)
    (hgood : OnlyAddrUnavailable ifaces) :
    ∃ s, (ip4Loop acc ifaces).2 = Except.ok s ∧
      (∀ ip, ip ∈ s ↔ ip ∈ acc ∨ ∃ q ∈ ifaces, q.result = Except.ok ip) ∧
      (∀ q ∈ ifaces, q.result = Except.error EADDRNOTAVAIL →
        q.name ∈ (ip4Loop acc ifaces).1) := by
  induction ifaces generalizing acc with
  | nil =>
    refine ⟨acc, rfl, ?_, ?_⟩
    · simp
    · simp
  | cons q rest ih =>
    have hgood' : OnlyAddrUnavailable rest := fun r hr => hgood r (List.mem_cons_of_mem q hr)
    cases hq : q.result with
    | error e =>
      have he : e = EADDRNOTAVAIL := hgood q (List.mem_cons_self q rest) e hq
      subst he
      obtain ⟨s, hs, hmem, hlog⟩ := ih acc hgood'
      refine ⟨s, ?_, ?_, ?_⟩
      · rw [ip4Loop_cons_warn acc q rest hq]
        exact hs
      · intro ip
        rw [hmem ip]
        constructor
        · rintro (h | ⟨r, hr, hok⟩)
          · exact Or.inl h
          · exact Or.inr ⟨r, List.mem_cons_of_mem q hr, hok⟩
        · rintro (h | ⟨r, hr, hok⟩)
          · exact Or.inl h
          · rcases List.mem_cons.mp hr with rfl | hr'
            · rw [hq] at hok
              cases hok
            · exact Or.inr ⟨r, hr', hok⟩
      · intro r hr hres
        rw [ip4Loop_cons_warn acc q rest hq]
        rcases List.mem_cons.mp hr with rfl | hr'
        · exact List.mem_cons_self r.name _
        · exact List.mem_cons_of_mem _ (hlog r hr' hres)
    | ok ip =>
      obtain ⟨s, hs, hmem, hlog⟩ := ih (setAdd acc ip) hgood'
      refine ⟨s, ?_, ?_, ?_⟩
      · rw [ip4Loop_cons_ok acc q rest ip hq]
        exact hs
      · intro ip'
        rw [hmem ip']
        constructor
        · rintro (h | ⟨r, hr, hok⟩)
          · rcases mem_setAdd.mp h with h' | rfl
            · exact Or.inl h'
            · exact Or.inr ⟨q, List.mem_cons_self q rest, hq⟩
          · exact Or.inr ⟨r, List.mem_cons_of_mem q hr, hok⟩
        · rintro (h | ⟨r, hr, hok⟩)
          · exact Or.inl (mem_setAdd.mpr (Or.inl h))
          · rcases List.mem_cons.mp hr with rfl | hr'
            · rw [hq] at hok
              cases hok
              exact Or.inl (mem_setAdd.mpr (Or.inr rfl))
            · exact Or.inr ⟨r, hr', hok⟩
      · intro r hr hres
        rw [ip4Loop_cons_ok acc q rest ip hq]
        rcases List.mem_cons.mp hr with rfl | hr'
        · rw [hq] at hres
          cases hres
        · exact hlog r hr' hres

theorem ip4Loop_fatal (pre : List IfaceAddr) (q : IfaceAddr) (rest : List IfaceAddr)
    (e : Nat) (acc : List String) (hgood : OnlyAddrUnavailable pre)
    (hq : q.result = Except.error e) (hne : e ≠ EADDRNOTAVAIL) :
    (ip4Loop acc (pre ++ q :: rest)).2 = Except.error e := by
  induction pre generalizing acc with
  | nil =>
    rw [List.nil_append, ip4Loop_cons_fatal acc q rest e hq hne]
  | cons r pre' ih =>
    have hgood' : OnlyAddrUnavailable pre' := fun x hx => hgood x (List.mem_cons_of_mem r hx)
    cases hr : r.result with
    | error e2 =>
      have : e2 = EADDRNOTAVAIL := hgood r (List.mem_cons_self r pre') e2 hr
      subst this
      rw [List.cons_append, ip4Loop_cons_warn acc r _ hr]
      exact ih acc hgood'
    | ok ip =>
      rw [List.cons_append, ip4Loop_cons_ok acc r _ ip hr]
      exact ih (setAdd acc ip) hgood'

/-- C7: during local IP discovery, an interface whose ioctl fails with errno
`EADDRNOTAVAIL` (99) is warned about and skipped — when all failures are of
that kind the scan succeeds, the returned address set holds exactly the
addresses of the answering interfaces (so nothing from the skipped ones) and
each skipped interface's name is logged — while the first `OSError` with any
other errno is raised to the caller. -/
theorem local_ip4_addr_list_skips_eaddrnotavail (ifaces : List IfaceAddr) :
    (OnlyAddrUnavailable ifaces →
      ∃ s, (local_ip4_addr_list ifaces).2 = Except.ok s ∧
        (∀ ip, ip ∈ s ↔ ∃ q ∈ ifaces, q.result = Except.ok ip) ∧
        (∀ q ∈ ifaces, q.result = Except.error EADDRNOTAVAIL →
          q.name ∈ (local_ip4_addr_list ifaces).1)) ∧
    (∀ pre q rest e, ifaces = pre ++ q :: rest → OnlyAddrUnavailable pre →
      q.result = Except.error e → e ≠ EADDRNOTAVAIL →
      (local_ip4_addr_list ifaces).2 = Except.error e) := by
  constructor
  · intro hgood
    obtain ⟨s, hs, hmem, hlog⟩ := ip4Loop_ok ifaces [] hgood
    refine ⟨s, hs, ?_, hlog⟩
    intro ip
    rw [hmem ip]
    simp
  · intro pre q rest e hsplit hgood hq hne
    rw [hsplit]
    exact ip4Loop_fatal pre q rest e [] hgood hq hne

/-- Witness for C7: on the witness host, interface `eth1` (errno 99) is
logged and skipped and the two answering interfaces' addresses are returned;
prepending an interface failing with errno 1 makes the scan raise errno 1. -/
theorem local_ip4_addr_list_skips_eaddrnotavail_witness :
    ((OnlyAddrUnavailable wIfaces →
      ∃ s, (local_ip4_addr_list wIfaces).2 = Except.ok s ∧
        (∀ ip, ip ∈ s ↔ ∃ q ∈ wIfaces, q.result = Except.ok ip) ∧
        (∀ q ∈ wIfaces, q.result = Except.error EADDRNOTAVAIL →
          q.name ∈ (local_ip4_addr_list wIfaces).1)) ∧
    (∀ pre q rest e, wIfaces = pre ++ q :: rest → OnlyAddrUnavailable pre →
      q.result = Except.error e → e ≠ EADDRNOTAVAIL →
      (local_ip4_addr_list wIfaces).2 = Except.error e)) :=
  local_ip4_addr_list_skips_eaddrnotavail wIfaces

end Dgl

namespace Dgl

theorem get_graph_create (g : DGLGraph) : (GraphData.create g).get_graph = g := by
  obtain ⟨n, es, nd, ed⟩ := g
  unfold GraphData.create GraphData.get_graph
  by_cases hn : nd.length = 0
  · have hnd : nd = [] := List.length_eq_zero.mp hn
    by_cases he : ed.length = 0
    · have hed : ed = [] := List.length_eq_zero.mp he
      subst hnd hed
      simp
    · subst hnd
      simp [he]
  · by_cases he : ed.length = 0
    · have hed : ed = [] := List.length_eq_zero.mp he
      subst hed
      simp [hn]
    · simp [hn, he]

theorem fsGet_fsSet (fs : FileSystem) (name : String) (c : FileContent) :
    fsGet (fsSet fs name c) name = some c := by
  unfold fsGet fsSet
  rw [List.find?_cons_of_pos _ (by simp)]
  rfl

/-- C8: saving a non-empty list of graphs with `save_graphs` and loading
the same file with `load_graphs` returns graphs equal to the saved ones
(same node counts, edge lists and node/edge feature tensors, in order)
together with the saved label dictionary — the empty dictionary when no
labels (or an empty dict) were saved. -/
theorem save_load_roundtrip (fs : FileSystem) (filename : String)
    (gList : List DGLGraph) (labels : Option FeatDict) (hne : gList ≠ []) :
    ∃ fs2, save_graphs fs filename gList labels = some fs2 ∧
      load_graphs fs2 filename none = some (gList, labels.getD []) := by
  cases gList with
  | nil => exact absurd rfl hne
  | cons g0 gs =>
    refine ⟨save_dglgraphs fs filename (g0 :: gs) labels, rfl, ?_⟩
    unfold save_dglgraphs CAPI_SaveDGLGraphs_V0
    rw [load_graphs, CAPI_GetFileVersion, fsGet_fsSet]
    rw [load_graph_v1, fsGet_fsSet]
    have hmap : ((g0 :: gs).map GraphData.create).map GraphData.get_graph = g0 :: gs := by
      rw [List.map_map]
      exact List.map_congr_left (fun g _ => get_graph_create g) |>.trans (List.map_id _)
    simp only [Option.getD_none]
    rw [hmap]
    cases labels with
    | none => rfl
    | some l =>
      by_cases hl : l.length ≠ 0
      · simp [hl]
      · rw [not_not] at hl
        simp [hl, List.length_eq_zero.mp hl]

/-- Witness for C8: two concrete graphs with features survive the round trip,
with labels and without. -/
theorem save_load_roundtrip_witness :
    (∃ fs2, save_graphs [] "graphs.bin" [wGraphA, wGraphB] (some [("glabel", { data := [0, 1] })]) = some fs2 ∧
      load_graphs fs2 "graphs.bin" none =
        some ([wGraphA, wGraphB], (some [("glabel", { data := [0, 1] })] : Option FeatDict).getD [])) ∧
    (∃ fs2, save_graphs [] "graphs.bin" [wGraphA, wGraphB] none = some fs2 ∧
      load_graphs fs2 "graphs.bin" none = some ([wGraphA, wGraphB], (none : Option FeatDict).getD [])) :=
  ⟨save_load_roundtrip [] "graphs.bin" [wGraphA, wGraphB] (some [("glabel", { data := [0, 1] })]) (by simp),
   save_load_roundtrip [] "graphs.bin" [wGraphA, wGraphB] none (by simp)⟩

end Dgl

namespace Dgl

/-- The full event trace of a successful `connect_to_server` run. -/
def connectEvents (namebook : List ServerInfo) (localIp : String) (localPort : Nat)
    (cid : Nat) (q : Nat) : List Event :=
  [Event.registerService Service.clientRegister,
   Event.registerService Service.shutDownServer,
   Event.registerService Service.getNumClients,
   Event.registerCtrlC,
   Event.createSender q, Event.createReceiver q] ++
  addrEvents 0 namebook ++ [Event.senderConnect] ++
  (List.range namebook.length).map
    (fun i => Event.sendRequest i (Request.clientRegister (localIp ++ ":" ++ toString localPort))) ++
  [Event.receiverWait localIp localPort namebook.length, Event.recvResponse,
   Event.sendRequest 0 (Request.getNumClients (cid : Int)), Event.recvResponse]

/-- The state in which a successful `connect_to_server` run ends. -/
def connectedState (namebook : List ServerInfo) (firstInfo : ServerInfo)
    (localIp : String) (localPort : Nat) (cid ncl : Nat) (rest : List Response)
    (q mid : Nat) : ClientState :=
  { numServer := namebook.length
    numServerPerMachine := firstInfo.groupCount
    numMachines := (namebook.foldl (fun m info => if info.machineId > m then info.machineId else m) 0) + 1
    machineId := mid
    rank := (cid : Int)
    numClient := ncl
    initialized := true
    exitHooks := [ExitHook.exitClient]
    responses := rest
    events := connectEvents namebook localIp localPort cid q }

theorem connect_to_server_eq (info0 : ServerInfo) (nbrest : List ServerInfo)
    (ifaces : List IfaceAddr) (localIp : String) (localPort : Nat)
    (cid ncl : Nat) (rest : List Response) (q mid : Nat) (hq : q ≠ 0)
    (hmid : get_local_machine_id (info0 :: nbrest) ifaces = Except.ok mid) :
    connect_to_server (info0 :: nbrest) ifaces localIp localPort
        (Response.clientRegister cid :: Response.getNumClients ncl :: rest) q =
      some (connectedState (info0 :: nbrest) info0 localIp localPort cid ncl rest q mid) := by
  rw [connect_to_server, if_neg hq]
  simp only [List.head?, hmid]
  simp [connectedState, connectEvents]

end Dgl

namespace Dgl

theorem mem_addrEvents (nb : List ServerInfo) (j i : Nat) (info : ServerInfo)
    (h : nb.get? i = some info) :
    Event.addReceiverAddr info.ip info.port (j + i) ∈ addrEvents j nb := by
  induction nb generalizing j i with
  | nil => simp at h
  | cons a t ih =>
    cases i with
    | zero =>
      rw [List.get?] at h
      cases h
      exact List.mem_cons_self _ _
    | succ i' =>
      rw [List.get?] at h
      have := ih (j + 1) i' h
      rw [addrEvents]
      refine List.mem_cons_of_mem _ ?_
      have harith : j + 1 + i' = j + (i' + 1) := by omega
      rw [harith] at this
      exact this

/-- C3: a successful `connect_to_server` run creates a sender and a receiver,
adds the (ip, port) of every listed server rank as a receiver address and
connects to them, sends a `ClientRegisterRequest` carrying the client's own
reachable ip:port to every server, sets the client's rank from the
`client_id` of the received response, then sends a `GetNumberClientsRequest`
to server 0 and records the returned client count; afterwards
`is_initialized()` returns `True`. -/
theorem connect_to_server_sequence (info0 : ServerInfo) (nbrest : List ServerInfo)
    (ifaces : List IfaceAddr) (localIp : String) (localPort : Nat)
    (cid ncl : Nat) (rest : List Response) (q mid : Nat) (hq : q ≠ 0)
    (hmid : get_local_machine_id (info0 :: nbrest) ifaces = Except.ok mid) :
    ∃ st, connect_to_server (info0 :: nbrest) ifaces localIp localPort
        (Response.clientRegister cid :: Response.getNumClients ncl :: rest) q = some st ∧
      Event.createSender q ∈ st.events ∧
      Event.createReceiver q ∈ st.events ∧
      (∀ i info, (info0 :: nbrest).get? i = some info →
        Event.addReceiverAddr info.ip info.port i ∈ st.events) ∧
      Event.senderConnect ∈ st.events ∧
      (∀ i, i < (info0 :: nbrest).length →
        Event.sendRequest i (Request.clientRegister (localIp ++ ":" ++ toString localPort)) ∈ st.events) ∧
      st.rank = (cid : Int) ∧
      Event.sendRequest 0 (Request.getNumClients (cid : Int)) ∈ st.events ∧
      st.numClient = ncl ∧
      is_initialized st = true := by
  refine ⟨connectedState (info0 :: nbrest) info0 localIp localPort cid ncl rest q mid,
    connect_to_server_eq info0 nbrest ifaces localIp localPort cid ncl rest q mid hq hmid,
    ?_, ?_, ?_, ?_, ?_, rfl, ?_, rfl, rfl⟩
  · simp [connectedState, connectEvents]
  · simp [connectedState, connectEvents]
  · intro i info h
    have := mem_addrEvents (info0 :: nbrest) 0 i info h
    rw [Nat.zero_add] at this
    simp only [connectedState, connectEvents]
    simp [this]
  · simp [connectedState, connectEvents]
  · intro i hi
    simp only [connectedState, connectEvents]
    simp only [List.append_assoc, List.mem_append]
    refine Or.inr (Or.inr (Or.inr (Or.inl ?_)))
    exact List.mem_map.mpr ⟨i, List.mem_range.mpr hi, rfl⟩
  · simp [connectedState, connectEvents]

end Dgl

namespace Dgl

/-- Witness for C3: the witness client connects to the 3-server namebook,
receives client id 3 and a count of 7 clients. -/
theorem connect_to_server_sequence_witness :
    ∃ st, connect_to_server (wNb0 :: wNbRest) wIfaces "5.6.7.8" 40000
        (Response.clientRegister 3 :: Response.getNumClients 7 :: []) 100 = some st ∧
      Event.createSender 100 ∈ st.events ∧
      Event.createReceiver 100 ∈ st.events ∧
      (∀ i info, (wNb0 :: wNbRest).get? i = some info →
        Event.addReceiverAddr info.ip info.port i ∈ st.events) ∧
      Event.senderConnect ∈ st.events ∧
      (∀ i, i < (wNb0 :: wNbRest).length →
        Event.sendRequest i (Request.clientRegister ("5.6.7.8" ++ ":" ++ toString 40000)) ∈ st.events) ∧
      st.rank = ((3 : Nat) : Int) ∧
      Event.sendRequest 0 (Request.getNumClients ((3 : Nat) : Int)) ∈ st.events ∧
      st.numClient = 7 ∧
      is_initialized st = true :=
  connect_to_server_sequence wNb0 wNbRest wIfaces "5.6.7.8" 40000 3 7 [] 100 1
    (by decide) rfl

/-- C5: every successful `connect_to_server` run registers `exit_client` as
the process-exit hook, and `exit_client` first runs `shutdown_servers`
(broadcasting the shutdown when the client has rank 0) and only afterwards
releases the sender and the receiver through `finalize_client` — for every
client state the shutdown sends precede the finalize events in the trace. -/
theorem exit_client_shutdown_before_finalize (info0 : ServerInfo)
    (nbrest : List ServerInfo) (ifaces : List IfaceAddr) (localIp : String)
    (localPort : Nat) (cid ncl : Nat) (rest : List Response) (q mid : Nat)
    (hq : q ≠ 0) (hmid : get_local_machine_id (info0 :: nbrest) ifaces = Except.ok mid) :
    (∀ st, connect_to_server (info0 :: nbrest) ifaces localIp localPort
        (Response.clientRegister cid :: Response.getNumClients ncl :: rest) q = some st →
      st.exitHooks = [ExitHook.exitClient]) ∧
    (∀ st : ClientState, (exit_client st).events =
      (st.events ++ (if st.rank = 0 then (List.range st.numServer).map (fun i => Event.sendRequest i (Request.shutDown st.rank)) else [])) ++
      [Event.finalizeSender, Event.finalizeReceiver]) := by
  constructor
  · intro st h
    rw [connect_to_server_eq info0 nbrest ifaces localIp localPort cid ncl rest q mid hq hmid] at h
    cases h
    rfl
  · intro st
    by_cases h : st.rank = 0
    · simp [exit_client, finalize_client, shutdown_servers, h]
    · simp [exit_client, finalize_client, shutdown_servers, h]

/-- Witness for C5: the witness connection ends with the hook registered, and
for the concrete rank-0 and rank-5 clients the trace equation holds. -/
theorem exit_client_shutdown_before_finalize_witness :
    (∀ st, connect_to_server (wNb0 :: wNbRest) wIfaces "5.6.7.8" 40000
        (Response.clientRegister 3 :: Response.getNumClients 7 :: []) 100 = some st →
      st.exitHooks = [ExitHook.exitClient]) ∧
    (∀ st : ClientState, (exit_client st).events =
      (st.events ++ (if st.rank = 0 then (List.range st.numServer).map (fun i => Event.sendRequest i (Request.shutDown st.rank)) else [])) ++
      [Event.finalizeSender, Event.finalizeReceiver]) :=
  exit_client_shutdown_before_finalize wNb0 wNbRest wIfaces "5.6.7.8" 40000 3 7 [] 100 1
    (by decide) rfl

end Dgl

namespace Dgl

theorem mem_innerNodes {np : List Nat} {p n : Nat} :
    n ∈ innerNodes np p ↔ n < np.length ∧ nodePartOf np n = p := by
  unfold innerNodes
  rw [List.mem_filter, List.mem_range]
  simp

theorem innerNodes_nodup (np : List Nat) (p : Nat) : (innerNodes np p).Nodup :=
  List.Nodup.filter _ (List.nodup_range _)

theorem nodePartOf_mem (np : List Nat) (n : Nat) (h : n < np.length) :
    nodePartOf np n ∈ np := by
  rw [nodePartOf, List.getD_eq_getElem np 0 h]
  exact List.getElem_mem h

theorem subset_expandOnce (g : Graph) (s : List Nat) : ∀ x ∈ s, x ∈ expandOnce g s :=
  fun _x hx => List.mem_append.mpr (Or.inl hx)

theorem subset_iterate_expand (g : Graph) (k : Nat) :
    ∀ s, ∀ x ∈ s, x ∈ (expandOnce g)^[k] s := by
  induction k with
  | zero => intro s x hx; simpa using hx
  | succ k ih =>
    intro s x hx
    rw [Function.iterate_succ_apply]
    exact ih (expandOnce g s) x (subset_expandOnce g s x hx)

theorem innerNodes_subset_haloNodeSet (g : Graph) (np : List Nat) (p k : Nat) :
    ∀ n ∈ innerNodes np p, n ∈ haloNodeSet g np p k :=
  subset_iterate_expand g k (innerNodes np p)

theorem expandOnce_subset_haloNodeSet (g : Graph) (np : List Nat) (p k : Nat)
    (hk : 1 ≤ k) : ∀ x ∈ expandOnce g (innerNodes np p), x ∈ haloNodeSet g np p k := by
  intro x hx
  obtain ⟨m, rfl⟩ : ∃ m, k = m + 1 := ⟨k - 1, by omega⟩
  rw [haloNodeSet, Function.iterate_succ_apply]
  exact subset_iterate_expand g m _ x hx

theorem mem_innerEdgeIds {g : Graph} {np : List Nat} {p k e : Nat} :
    e ∈ innerEdgeIds g np p k ↔
      ∃ u v, g.edges.get? e = some (u, v) ∧ u ∈ haloNodeSet g np p k ∧
        v ∈ haloNodeSet g np p k ∧ nodePartOf np v = p := by
  unfold innerEdgeIds inducedEdges
  rw [List.mem_filterMap]
  constructor
  · rintro ⟨t, ht, hsome⟩
    rw [List.mem_filterMap] at ht
    obtain ⟨j, hj, hjt⟩ := ht
    cases hget : g.edges.get? j with
    | none => rw [hget] at hjt; cases hjt
    | some uv =>
      obtain ⟨u, v⟩ := uv
      simp only [hget] at hjt
      by_cases hS : u ∈ haloNodeSet g np p k ∧ v ∈ haloNodeSet g np p k
      · rw [if_pos hS] at hjt
        injection hjt with hjt'
        subst hjt'
        by_cases hown : nodePartOf np v = p
        · rw [if_pos hown] at hsome
          injection hsome with hsome'
          subst hsome'
          exact ⟨u, v, hget, hS.1, hS.2, hown⟩
        · rw [if_neg hown] at hsome
          cases hsome
      · rw [if_neg hS] at hjt
        cases hjt
  · rintro ⟨u, v, hget, hu, hv, hown⟩
    obtain ⟨hlt, _⟩ := List.get?_eq_some.mp hget
    refine ⟨(e, u, v), ?_, ?_⟩
    · rw [List.mem_filterMap]
      refine ⟨e, List.mem_range.mpr hlt, ?_⟩
      simp only [hget]
      rw [if_pos ⟨hu, hv⟩]
    · rw [if_pos hown]

/-- C1 counterexample: for the 2-node graph with the single edge `(0, 1)` cut
between two partitions at halo depth 0, the edge belongs to no partition's
induced subgraph, so it is an inner edge of no partition: the inner edge sets
do not cover the original edge set even though the inner node sets do. -/
theorem partition_inner_cover_counterexample :
    ¬ ((∀ n, n < cutGraph.numNodes → ∃ p, p < 2 ∧ n ∈ innerNodes cutAssign p) ∧
       (∀ p, p < 2 → ∀ n ∈ innerNodes cutAssign p, n < cutGraph.numNodes) ∧
       (∀ p, p < 2 → ∀ q, q < 2 → p ≠ q → ∀ n ∈ innerNodes cutAssign p,
          n ∉ innerNodes cutAssign q) ∧
       (∀ p, p < 2 → ∀ e ∈ innerEdgeIds cutGraph cutAssign p 0,
          e < cutGraph.edges.length) ∧
       (∀ p, p < 2 → ∀ q, q < 2 → p ≠ q → ∀ e ∈ innerEdgeIds cutGraph cutAssign p 0,
          e ∉ innerEdgeIds cutGraph cutAssign q 0) ∧
       (∀ e, e < cutGraph.edges.length →
          ∃ p, p < 2 ∧ e ∈ innerEdgeIds cutGraph cutAssign p 0)) := by
  intro h
  exact absurd (h.2.2.2.2.2 0 (by decide)) (by decide)

/-- C1 amended: for every partitioning, the inner node sets of the partitions
cover the original node set disjointly (any halo depth); the inner edge sets
are always pairwise disjoint subsets of the original edge set, and whenever
the halo depth is at least 1 every original edge is an inner edge of exactly
one partition — at halo depth 0 an edge cut between two partitions is an
inner edge of none. -/
theorem partition_inner_cover_amended (g : Graph) (np : List Nat) (P k : Nat)
    (hlen : np.length = g.numNodes) (hval : ∀ v ∈ np, v < P) (hwf : g.wf) :
    (∀ n, n < g.numNodes → ∃ p, p < P ∧ n ∈ innerNodes np p) ∧
    (∀ p, p < P → ∀ n ∈ innerNodes np p, n < g.numNodes) ∧
    (∀ p, p < P → ∀ q, q < P → p ≠ q → ∀ n ∈ innerNodes np p, n ∉ innerNodes np q) ∧
    (∀ p, p < P → ∀ e ∈ innerEdgeIds g np p k, e < g.edges.length) ∧
    (∀ p, p < P → ∀ q, q < P → p ≠ q → ∀ e ∈ innerEdgeIds g np p k,
      e ∉ innerEdgeIds g np q k) ∧
    (1 ≤ k → ∀ e, e < g.edges.length → ∃ p, p < P ∧ e ∈ innerEdgeIds g np p k) := by
  refine ⟨?_, ?_, ?_, ?_, ?_, ?_⟩
  · intro n hn
    have hn' : n < np.length := hlen ▸ hn
    exact ⟨nodePartOf np n, hval _ (nodePartOf_mem np n hn'),
      mem_innerNodes.mpr ⟨hn', rfl⟩⟩
  · intro p _ n hn
    exact hlen ▸ (mem_innerNodes.mp hn).1
  · intro p _ q _ hpq n hnp hnq
    exact hpq ((mem_innerNodes.mp hnp).2.symm.trans (mem_innerNodes.mp hnq).2)
  · intro p _ e he
    obtain ⟨u, v, hget, _⟩ := mem_innerEdgeIds.mp he
    obtain ⟨hlt, _⟩ := List.get?_eq_some.mp hget
    exact hlt
  · intro p _ q _ hpq e hep heq
    obtain ⟨u, v, hget, _, _, hown⟩ := mem_innerEdgeIds.mp hep
    obtain ⟨u', v', hget', _, _, hown'⟩ := mem_innerEdgeIds.mp heq
    rw [hget] at hget'
    injection hget' with huv
    have hv : v = v' := congrArg Prod.snd huv
    exact hpq (hown.symm.trans (hv ▸ hown'))
  · intro hk e he
    rcases hgv : g.edges.get ⟨e, he⟩ with ⟨u, v⟩
    have hget : g.edges.get? e = some (u, v) := by rw [List.get?_eq_get he, hgv]
    have hedge_mem : (u, v) ∈ g.edges := by
      rw [← hgv]
      exact List.get_mem g.edges e he
    have hu_lt : u < g.numNodes := (hwf _ hedge_mem).1
    have hv_lt : v < g.numNodes := (hwf _ hedge_mem).2
    have hv_len : v < np.length := hlen ▸ hv_lt
    have hpP : nodePartOf np v < P := hval _ (nodePartOf_mem np v hv_len)
    have hv_inner : v ∈ innerNodes np (nodePartOf np v) :=
      mem_innerNodes.mpr ⟨hv_len, rfl⟩
    have hv_S : v ∈ haloNodeSet g np (nodePartOf np v) k :=
      innerNodes_subset_haloNodeSet g np _ k v hv_inner
    have hu_S : u ∈ haloNodeSet g np (nodePartOf np v) k := by
      by_cases hu0 : u ∈ innerNodes np (nodePartOf np v)
      · exact innerNodes_subset_haloNodeSet g np _ k u hu0
      · apply expandOnce_subset_haloNodeSet g np _ k hk
        refine List.mem_append.mpr (Or.inr ?_)
        rw [List.mem_filter, List.mem_range]
        refine ⟨hu_lt, ?_⟩
        rw [Bool.and_eq_true]
        refine ⟨decide_eq_true hu0, ?_⟩
        rw [adjacentToSet, List.any_eq_true]
        exact ⟨(u, v), hedge_mem, decide_eq_true (Or.inl ⟨rfl, hv_inner⟩)⟩
    exact ⟨nodePartOf np v, hpP,
      mem_innerEdgeIds.mpr ⟨u, v, hget, hu_S, hv_S, rfl⟩⟩

/-- Witness for C1 amended: the cut graph split across two partitions at halo
depth 1. -/
theorem partition_inner_cover_amended_witness :
    (∀ n, n < cutGraph.numNodes → ∃ p, p < 2 ∧ n ∈ innerNodes cutAssign p) ∧
    (∀ p, p < 2 → ∀ n ∈ innerNodes cutAssign p, n < cutGraph.numNodes) ∧
    (∀ p, p < 2 → ∀ q, q < 2 → p ≠ q → ∀ n ∈ innerNodes cutAssign p,
      n ∉ innerNodes cutAssign q) ∧
    (∀ p, p < 2 → ∀ e ∈ innerEdgeIds cutGraph cutAssign p 1,
      e < cutGraph.edges.length) ∧
    (∀ p, p < 2 → ∀ q, q < 2 → p ≠ q → ∀ e ∈ innerEdgeIds cutGraph cutAssign p 1,
      e ∉ innerEdgeIds cutGraph cutAssign q 1) ∧
    (1 ≤ 1 → ∀ e, e < cutGraph.edges.length →
      ∃ p, p < 2 ∧ e ∈ innerEdgeIds cutGraph cutAssign p 1) :=
  partition_inner_cover_amended cutGraph cutAssign 2 1 (by decide) (by decide)
    (by unfold Graph.wf; decide)

end Dgl

namespace Dgl

theorem haloNodeSet_decomp (g : Graph) (np : List Nat) (p k : Nat)
    (hlen : np.length = g.numNodes) :
    ∃ ex, haloNodeSet g np p k = innerNodes np p ++ ex ∧
      ∀ n ∈ ex, nodePartOf np n ≠ p := by
  suffices h : ∀ m s, (∃ ex, s = innerNodes np p ++ ex ∧
      ∀ n ∈ ex, n < g.numNodes ∧ nodePartOf np n ≠ p) →
      ∃ ex, (expandOnce g)^[m] s = innerNodes np p ++ ex ∧
        ∀ n ∈ ex, n < g.numNodes ∧ nodePartOf np n ≠ p by
    obtain ⟨ex, hex, hprop⟩ := h k (innerNodes np p) ⟨[], by simp, by simp⟩
    exact ⟨ex, hex, fun n hn => (hprop n hn).2⟩
  intro m
  induction m with
  | zero =>
    intro s hs
    simpa using hs
  | succ m ih =>
    intro s hs
    rw [Function.iterate_succ_apply]
    apply ih
    obtain ⟨ex, rfl, hprop⟩ := hs
    refine ⟨ex ++ (List.range g.numNodes).filter
        (fun n => decide (n ∉ innerNodes np p ++ ex) &&
          adjacentToSet g (innerNodes np p ++ ex) n), ?_, ?_⟩
    · rw [expandOnce, List.append_assoc]
    · intro n hn
      rcases List.mem_append.mp hn with h1 | h2
      · exact hprop n h1
      · rw [List.mem_filter, List.mem_range] at h2
        obtain ⟨hnlt, hcond⟩ := h2
        rw [Bool.and_eq_true] at hcond
        have hnotin : n ∉ innerNodes np p ++ ex := of_decide_eq_true hcond.1
        refine ⟨hnlt, fun hown => ?_⟩
        exact hnotin (List.mem_append.mpr (Or.inl (mem_innerNodes.mpr ⟨hlen ▸ hnlt, hown⟩)))

theorem map_add_indexOf_nodup (l : List Nat) (hl : l.Nodup) (c : Nat) :
    l.map (fun x => c + l.indexOf x) = List.range' c l.length := by
  induction l generalizing c with
  | nil => rfl
  | cons a t ih =>
    obtain ⟨ha, ht⟩ := List.nodup_cons.mp hl
    rw [List.map_cons, List.indexOf_cons_self, Nat.add_zero]
    have hmap : t.map (fun x => c + (a :: t).indexOf x) =
        t.map (fun x => (c + 1) + t.indexOf x) := by
      apply List.map_congr_left
      intro x hx
      have hxa : a ≠ x := fun h => ha (h ▸ hx)
      rw [List.indexOf_cons_ne t hxa]
      omega
    rw [hmap, ih ht (c + 1), List.length_cons, List.range'_succ]

/-- C2: in every reshuffled partition subgraph the inner nodes occupy the
contiguous low local-id range `[0, inner_count)` — every node at a local id
below the inner count carries the `inner` flag and every later node does not —
and the reshuffled global ids of those inner nodes are exactly the contiguous
integer range `[innerOffset, innerOffset + inner_count)` that the range-based
partition book requires. -/
theorem reshuffled_inner_contiguous (g : Graph) (np : List Nat) (P p k : Nat)
    (hlen : np.length = g.numNodes) (_hval : ∀ v ∈ np, v < P) (_hp : p < P) :
    (∀ x ∈ (reshuffledSubgraphNodes g np p k).take (innerCnt np p), x.inner = true) ∧
    (∀ x ∈ (reshuffledSubgraphNodes g np p k).drop (innerCnt np p), x.inner = false) ∧
    ((reshuffledSubgraphNodes g np p k).take (innerCnt np p)).map SubgraphNode.globalId =
      List.range' (innerOffset np p) (innerCnt np p) := by
  obtain ⟨ex, hex, hexprop⟩ := haloNodeSet_decomp g np p k hlen
  have htake : (reshuffledSubgraphNodes g np p k).take (innerCnt np p) =
      (innerNodes np p).map (fun n =>
        { globalId := newNodeId np n, origId := n,
          inner := decide (nodePartOf np n = p), partId := nodePartOf np n }) := by
    rw [reshuffledSubgraphNodes, hex, List.map_append]
    exact List.take_left' (by rw [List.length_map, innerCnt])
  have hdrop : (reshuffledSubgraphNodes g np p k).drop (innerCnt np p) =
      ex.map (fun n =>
        { globalId := newNodeId np n, origId := n,
          inner := decide (nodePartOf np n = p), partId := nodePartOf np n }) := by
    rw [reshuffledSubgraphNodes, hex, List.map_append]
    exact List.drop_left' (by rw [List.length_map, innerCnt])
  refine ⟨?_, ?_, ?_⟩
  · intro x hx
    rw [htake] at hx
    obtain ⟨n, hn, rfl⟩ := List.mem_map.mp hx
    exact decide_eq_true (mem_innerNodes.mp hn).2
  · intro x hx
    rw [hdrop] at hx
    obtain ⟨n, hn, rfl⟩ := List.mem_map.mp hx
    exact decide_eq_false (hexprop n hn)
  · rw [htake, List.map_map]
    have hcongr : (innerNodes np p).map (SubgraphNode.globalId ∘ (fun n =>
        { globalId := newNodeId np n, origId := n,
          inner := decide (nodePartOf np n = p), partId := nodePartOf np n })) =
        (innerNodes np p).map (fun n => innerOffset np p + (innerNodes np p).indexOf n) := by
      apply List.map_congr_left
      intro n hn
      show newNodeId np n = _
      rw [newNodeId, (mem_innerNodes.mp hn).2]
    rw [hcongr, map_add_indexOf_nodup _ (innerNodes_nodup np p), innerCnt]

/-- Witness for C2: partition 0 of the reshuffled 3-node path graph at halo
depth 1 — its two inner nodes sit at local ids 0 and 1 with global ids `[0, 1]`. -/
theorem reshuffled_inner_contiguous_witness :
    (∀ x ∈ (reshuffledSubgraphNodes pathGraph pathAssign 0 1).take (innerCnt pathAssign 0), x.inner = true) ∧
    (∀ x ∈ (reshuffledSubgraphNodes pathGraph pathAssign 0 1).drop (innerCnt pathAssign 0), x.inner = false) ∧
    ((reshuffledSubgraphNodes pathGraph pathAssign 0 1).take (innerCnt pathAssign 0)).map SubgraphNode.globalId =
      List.range' (innerOffset pathAssign 0) (innerCnt pathAssign 0) :=
  reshuffled_inner_contiguous pathGraph pathAssign 2 0 1 (by decide) (by decide) (by decide)

end Dgl
